import Mathlib

/-!
Verification development for the quiz application's data layer
(`quiz_app/database/migrations.py`, `quiz_app/database/repository.py`,
`quiz_app/database/connection.py`), its quiz service
(`quiz_app/services/quiz_service.py`), its models
(`quiz_app/models/question.py`, `quiz_app/models/user.py`) and the quiz
window countdown (`quiz_app/gui/quiz_window.py`).

The Python code is shallowly embedded: SQLite tables become lists of row
records, transactions become all-or-nothing state updates (a rolled-back
transaction returns the unchanged state), exceptions become `Option`
results, and wall-clock readings (migration execution duration, the
`CURRENT_TIMESTAMP` written to `last_login`) become explicit parameters.
Timestamp columns that no verified property mentions (`created_at`,
`updated_at`, `completed_at`) are left out of the row models, as is the
`Migration.down`/`rollback_migration` direction, which no property below
concerns.
-/

namespace QuizApp

/-! ## Schema migration engine (`quiz_app/database/migrations.py`) -/

/-- One row of the `schema_migrations` tracking table: the INSERT in
`MigrationManager.apply_migration` writes version, description and
execution time (the `applied_at` column takes the SQLite default and is
not read anywhere). -/
structure MigRecord where
  version : String
  description : String
  execTimeMs : Nat
deriving DecidableEq

/-- A migration unit (class `Migration`): a version token, a description
and an `up` action on the schema.  `up` returning `none` models
`migration.up(conn)` raising, in which case the surrounding transaction
is rolled back.  The type of schemas is a parameter `σ`; the five
concrete units of the repository instantiate it with `SqlSchema` below. -/
structure Migration (σ : Type) where
  version : String
  description : String
  up : σ → Option σ

/-- The persistent state seen by `MigrationManager`: the
`schema_migrations` table (`none` while that table does not exist) and
the rest of the database schema. -/
structure MState (σ : Type) where
  tracking : Option (List MigRecord)
  schema : σ
deriving DecidableEq

/-- Code-point-wise lexicographic comparison of character lists: how
Python compares `str` values and how SQLite's default BINARY collation
orders TEXT (the version tokens here are plain ASCII). -/
def charListLe : List Char → List Char → Bool
  | [], _ => true
  | _ :: _, [] => false
  | a :: as, b :: bs =>
    if a.toNat < b.toNat then true
    else if b.toNat < a.toNat then false
    else charListLe as bs

/-- Lexicographic `≤` on strings, by code point. -/
def strLe (a b : String) : Bool := charListLe a.data b.data

/-- Insertion step of sorting by a `String` key (used to model both
`ORDER BY version` and Python's stable `list.sort(key=...)`). -/
def insertKeyLe (key : α → String) (m : α) : List α → List α
  | [] => [m]
  | x :: xs => if strLe (key m) (key x) then m :: x :: xs
               else x :: insertKeyLe key m xs

/-- Stable sort by a `String` key. -/
def sortKeyLe (key : α → String) : List α → List α
  | [] => []
  | x :: xs => insertKeyLe key x (sortKeyLe key xs)

/-- `MigrationManager._register_migrations` (lines 47-65): collect the
migration units, then sort them by version. -/
def registerMigrations (migs : List (Migration σ)) : List (Migration σ) :=
  sortKeyLe Migration.version migs

/-- `MigrationManager.create_migrations_table` (lines 67-84):
`CREATE TABLE IF NOT EXISTS schema_migrations` — creates an empty
tracking table when absent, leaves everything alone otherwise. -/
def create_migrations_table (s : MState σ) : MState σ :=
  match s.tracking with
  | none => ⟨some [], s.schema⟩
  | some _ => s

/-- `MigrationManager.get_applied_migrations` (lines 86-98):
`SELECT version FROM schema_migrations ORDER BY version`; the
`sqlite3.OperationalError` raised when the table does not exist is
caught and turned into the empty list. -/
def get_applied_migrations (s : MState σ) : List String :=
  match s.tracking with
  | none => []
  | some recs => sortKeyLe id (recs.map MigRecord.version)

/-- `MigrationManager.get_pending_migrations` (lines 100-103): the
registered migrations whose version is not in the applied set. -/
def get_pending_migrations (migs : List (Migration σ)) (s : MState σ) :
    List (Migration σ) :=
  migs.filter (fun m => decide (m.version ∉ get_applied_migrations s))

/-- `MigrationManager.apply_migration` (lines 105-149): inside one
transaction, run `up`, then INSERT the (version, description, duration)
record; on any failure — `up` raising, the tracking table missing, or
the `version TEXT PRIMARY KEY` being violated — roll the transaction
back (state unchanged) and return `False`.  `dur` is the measured
execution time in milliseconds. -/
def apply_migration (dur : Nat) (m : Migration σ) (s : MState σ) :
    Bool × MState σ :=
  match m.up s.schema with
  | none => (false, s)
  | some sch =>
    match s.tracking with
    | none => (false, s)
    | some recs =>
      if recs.any (fun r => r.version == m.version) then (false, s)
      else (true, ⟨some (recs ++ [⟨m.version, m.description, dur⟩]), sch⟩)

/-- The `for migration in pending` loop of `MigrationManager.migrate`
(lines 212-215): stop and return `False` at the first unit that fails. -/
def migrateLoop (dur : Nat) : List (Migration σ) → MState σ → Bool × MState σ
  | [], s => (true, s)
  | m :: rest, s =>
    match apply_migration dur m s with
    | (true, s1) => migrateLoop dur rest s1
    | (false, s1) => (false, s1)

/-- `MigrationManager.migrate` (lines 191-222): ensure the tracking
table exists, compute the pending list once, then apply each pending
unit in order (an empty pending list returns `True` immediately, which
coincides with the empty loop). -/
def migrate (dur : Nat) (migs : List (Migration σ)) (s : MState σ) :
    Bool × MState σ :=
  let s1 := create_migrations_table s
  migrateLoop dur (get_pending_migrations migs s1) s1

/-- Reference composition of the `up` actions of a list of units:
`runAll` succeeds iff every unit's `up` succeeds in sequence. -/
def runAll : List (Migration σ) → σ → Option σ
  | [], sch => some sch
  | m :: rest, sch =>
    match m.up sch with
    | none => none
    | some sch1 => runAll rest sch1

/-- The tracking record `apply_migration` inserts for a unit. -/
def mkRecord (dur : Nat) (m : Migration σ) : MigRecord :=
  ⟨m.version, m.description, dur⟩

/-! ## The repository's five concrete migration units
(`migrations.py`, lines 275-413)

The schema they manipulate is modelled at the granularity the units
touch: which tables exist, which indexes exist, and whether the two
columns added by ALTER TABLE are present on `questions`. -/

structure SqlSchema where
  tables : List String
  indexes : List String
  questionsHasTags : Bool
  questionsHasDifficulty : Bool
deriving DecidableEq

/-- `CREATE TABLE IF NOT EXISTS name (...)`: a no-op when the table
already exists, otherwise the table is added. -/
def createTableIfNotExists (name : String) (s : SqlSchema) : SqlSchema :=
  if name ∈ s.tables then s else { s with tables := s.tables ++ [name] }

/-- `CREATE INDEX IF NOT EXISTS idx ON table(...)`: a no-op when the
index exists; an error (`none`) when the indexed table is missing. -/
def createIndexIfNotExists (idx table : String) (s : SqlSchema) :
    Option SqlSchema :=
  if idx ∈ s.indexes then some s
  else if table ∈ s.tables then some { s with indexes := s.indexes ++ [idx] }
  else none

/-- Migration 001, `InitialSchemaMigration.up`: create the `questions`
and `users` tables. -/
def initialSchemaMigration : Migration SqlSchema where
  version := "001"
  description := "Create initial schema with questions and users tables"
  up := fun s =>
    some (createTableIfNotExists "users" (createTableIfNotExists "questions" s))

/-- Migration 002, `AddIndexesMigration.up`: four indexes on the
`questions` and `users` tables. -/
def addIndexesMigration : Migration SqlSchema where
  version := "002"
  description := "Add indexes for better query performance"
  up := fun s =>
    (createIndexIfNotExists "idx_questions_category" "questions" s).bind
      fun s1 => (createIndexIfNotExists "idx_questions_created_at" "questions" s1).bind
        fun s2 => (createIndexIfNotExists "idx_users_username" "users" s2).bind
          fun s3 => createIndexIfNotExists "idx_users_role" "users" s3

/-- Migration 003, `AddTagsColumnMigration.up`:
`ALTER TABLE questions ADD COLUMN tags` — fails when the `questions`
table is missing or the column already exists. -/
def addTagsColumnMigration : Migration SqlSchema where
  version := "003"
  description := "Add tags column to questions table"
  up := fun s =>
    if "questions" ∈ s.tables ∧ s.questionsHasTags = false then
      some { s with questionsHasTags := true }
    else none

/-- Migration 004, `AddDifficultyLevelsMigration.up`:
`ALTER TABLE questions ADD COLUMN difficulty` plus an index on it. -/
def addDifficultyLevelsMigration : Migration SqlSchema where
  version := "004"
  description := "Add difficulty levels to questions"
  up := fun s =>
    if "questions" ∈ s.tables ∧ s.questionsHasDifficulty = false then
      createIndexIfNotExists "idx_questions_difficulty" "questions"
        { s with questionsHasDifficulty := true }
    else none

/-- Migration 005, `AddQuizResultsTrackingMigration.up`: create the
`quiz_results` table and two indexes on it. -/
def addQuizResultsTrackingMigration : Migration SqlSchema where
  version := "005"
  description := "Add quiz results tracking system"
  up := fun s =>
    (createIndexIfNotExists "idx_quiz_results_user" "quiz_results"
        (createTableIfNotExists "quiz_results" s)).bind
      fun s1 => createIndexIfNotExists "idx_quiz_results_completed"
        "quiz_results" s1

/-- The migration list a `MigrationManager` holds after
`_register_migrations`: the five units, sorted by version. -/
def theMigrations : List (Migration SqlSchema) :=
  registerMigrations [initialSchemaMigration, addIndexesMigration,
    addTagsColumnMigration, addDifficultyLevelsMigration,
    addQuizResultsTrackingMigration]

/-- The drop phase of `MigrationManager.reset_database` (lines
249-262): every table listed in `sqlite_master` — the user tables and,
when it exists, `schema_migrations` itself — is dropped except SQLite's
internal `sqlite_sequence`; dropping a table drops its indexes and
columns with it. -/
def reset_drop_tables (s : MState SqlSchema) : MState SqlSchema :=
  { tracking := none,
    schema := { tables := s.schema.tables.filter (fun t => t == "sqlite_sequence"),
                indexes := [],
                questionsHasTags := false,
                questionsHasDifficulty := false } }

/-- `MigrationManager.reset_database` (lines 244-269): drop the tables,
then rerun `migrate`. -/
def reset_database (dur : Nat) (s : MState SqlSchema) :
    Bool × MState SqlSchema :=
  migrate dur theMigrations (reset_drop_tables s)

/-- Modelled from the spec: the drop phase as claimed — "drops all
known tables **except the engine's own internal bookkeeping table**" —
so the `schema_migrations` table and its records survive while every
other table is dropped.  Kept only to compare against the code's
`reset_drop_tables`. -/
def reset_drop_tables_claimed (s : MState SqlSchema) : MState SqlSchema :=
  { tracking := s.tracking,
    schema := { tables := [],
                indexes := [],
                questionsHasTags := false,
                questionsHasDifficulty := false } }

/-- Modelled from the spec: `reset_database` as the claim describes it,
with the bookkeeping table preserved by the drop phase. -/
def reset_database_claimed (dur : Nat) (s : MState SqlSchema) :
    Bool × MState SqlSchema :=
  migrate dur theMigrations (reset_drop_tables_claimed s)

/-- A populated database state: all migrations applied (with recorded
execution times 7ms) and `sqlite_sequence` present, as after normal
use of the application. -/
def populatedState : MState SqlSchema :=
  { tracking := some
      [⟨"001", "Create initial schema with questions and users tables", 7⟩,
       ⟨"002", "Add indexes for better query performance", 7⟩,
       ⟨"003", "Add tags column to questions table", 7⟩,
       ⟨"004", "Add difficulty levels to questions", 7⟩,
       ⟨"005", "Add quiz results tracking system", 7⟩],
    schema := { tables := ["questions", "users", "sqlite_sequence", "quiz_results"],
                indexes := ["idx_questions_category", "idx_questions_created_at",
                  "idx_users_username", "idx_users_role",
                  "idx_questions_difficulty", "idx_quiz_results_user",
                  "idx_quiz_results_completed"],
                questionsHasTags := true,
                questionsHasDifficulty := true } }

/-! ## Models (`quiz_app/models/question.py`, `quiz_app/models/user.py`) -/

/-- Python's `str.strip()`: whitespace removed from both ends. -/
def stripChars (cs : List Char) : List Char :=
  ((cs.dropWhile Char.isWhitespace).reverse.dropWhile Char.isWhitespace).reverse

/-- `str.strip()` on a string. -/
def strip (s : String) : String := ⟨stripChars s.data⟩

/-- The `Question` dataclass (`question.py`, lines 6-20), minus the two
timestamp fields no verified property mentions. -/
structure Question where
  id : Option Nat := none
  prompt : String := ""
  option_a : String := ""
  option_b : String := ""
  option_c : String := ""
  answer : String := ""
  category : String := "General"
  difficulty : String := "Medium"
  tags : List String := []
deriving DecidableEq

/-- `Question.is_valid` (lines 99-107): prompt and the three options
truthy and non-blank after strip, answer in `['A', 'B', 'C']`. -/
def Question.is_valid (q : Question) : Bool :=
  (q.prompt != "" && strip q.prompt != "") &&
  (q.option_a != "" && strip q.option_a != "") &&
  (q.option_b != "" && strip q.option_b != "") &&
  (q.option_c != "" && strip q.option_c != "") &&
  (q.answer == "A" || q.answer == "B" || q.answer == "C")

/-- The `QuizResult` dataclass (`user.py`, lines 69-79), minus
`completed_at`.  `score`, `total_questions` and `time_taken` are Python
`int`s. -/
structure QuizResult where
  id : Option Nat := none
  user_id : Option Nat := none
  score : Int := 0
  total_questions : Int := 0
  time_taken : Int := 0
  questions_attempted : List Nat := []
deriving DecidableEq

/-- `QuizResult.percentage` (lines 86-91): guarded against
`total_questions = 0`, otherwise `score / total_questions * 100`
(exact rational in place of Python float division). -/
def QuizResult.percentage (r : QuizResult) : ℚ :=
  if r.total_questions = 0 then 0
  else (r.score : ℚ) / (r.total_questions : ℚ) * 100

/-- `QuizResult.grade` (lines 93-106): fixed letter-grade thresholds on
the percentage. -/
def QuizResult.grade (r : QuizResult) : String :=
  if r.percentage ≥ 90 then "A"
  else if r.percentage ≥ 80 then "B"
  else if r.percentage ≥ 70 then "C"
  else if r.percentage ≥ 60 then "D"
  else "F"

/-! ## Quiz scoring (`quiz_app/services/quiz_service.py`) -/

/-- `QuizService.calculate_score` (lines 91-122): walk the questions
with their index; when an answer is recorded at that index, it is
correct iff it equals the question's `answer` field (and bumps the
score); a missing answer is marked incorrect. -/
def calculate_score (questions : List Question) (user_answers : List String) :
    Nat × List Bool :=
  match questions, user_answers with
  | [], _ => (0, [])
  | _ :: qs, [] =>
    let r := calculate_score qs []
    (r.1, false :: r.2)
  | q :: qs, a :: as =>
    let c := a == q.answer
    let r := calculate_score qs as
    (r.1 + (if c then 1 else 0), c :: r.2)

/-- The percentage computed by `QuizService.generate_quiz_report`
(line 141): `score / total * 100` when `total > 0`, else `0`. -/
def report_percentage (score total : Nat) : ℚ :=
  if 0 < total then (score : ℚ) / (total : ℚ) * 100 else 0

/-- The letter grade computed by `QuizService.generate_quiz_report`
(lines 144-153). -/
def report_grade (percentage : ℚ) : String :=
  if percentage ≥ 90 then "A"
  else if percentage ≥ 80 then "B"
  else if percentage ≥ 70 then "C"
  else if percentage ≥ 60 then "D"
  else "F"

/-- The three-question session of the scoring scenario: correct answers
A, C, B. -/
def scenarioQuestions : List Question :=
  [{ prompt := "Q1", option_a := "a1", option_b := "b1", option_c := "c1",
     answer := "A" },
   { prompt := "Q2", option_a := "a2", option_b := "b2", option_c := "c2",
     answer := "C" },
   { prompt := "Q3", option_a := "a3", option_b := "b3", option_c := "c3",
     answer := "B" }]

/-! ## Question repository (`quiz_app/database/repository.py`)

A row of the `questions` table; `tags` is the single delimited text
column the repository serializes the tag list into.  The two timestamp
columns are omitted (no verified property mentions them). -/

structure QuestionRow where
  id : Nat
  prompt : String
  option_a : String
  option_b : String
  option_c : String
  answer : String
  category : String
  difficulty : String
  tags : String
deriving DecidableEq

/-- The `questions` table: its rows plus the AUTOINCREMENT counter. -/
structure QuestionsTable where
  rows : List QuestionRow
  nextId : Nat
deriving DecidableEq

/-- Python's `','.join(...)` on character lists. -/
def joinCommaChars : List (List Char) → List Char
  | [] => []
  | [t] => t
  | t :: ts => t ++ ',' :: joinCommaChars ts

/-- `','.join(question.tags) if question.tags else ''`
(`QuestionRepository.create`, line 29). -/
def joinTags (tags : List String) : String :=
  match tags with
  | [] => ""
  | _ => ⟨joinCommaChars (tags.map String.data)⟩

/-- Python's `s.split(',')` on character lists: `""` splits to `[""]`,
separators delimit possibly-empty groups. -/
def splitCommaChars : List Char → List (List Char)
  | [] => [[]]
  | c :: rest =>
    if c = ',' then [] :: splitCommaChars rest
    else
      match splitCommaChars rest with
      | [] => [[c]]
      | g :: gs => (c :: g) :: gs

/-- Tag parsing in `QuestionRepository._row_to_question` (lines
203-204): when the stored text is truthy,
`[tag.strip() for tag in row['tags'].split(',') if tag.strip()]`. -/
def parseTags (s : String) : List String :=
  if s = "" then []
  else (((splitCommaChars s.data).map stripChars).filter
          (fun t => !t.isEmpty)).map (fun cs => (⟨cs⟩ : String))

/-- `QuestionRepository._row_to_question` (lines 174-206), minus the
timestamp handling. -/
def rowToQuestion (r : QuestionRow) : Question :=
  { id := some r.id, prompt := r.prompt, option_a := r.option_a,
    option_b := r.option_b, option_c := r.option_c, answer := r.answer,
    category := r.category, difficulty := r.difficulty,
    tags := parseTags r.tags }

/-- The row the INSERT of `QuestionRepository.create` (lines 22-30)
writes, with the fresh AUTOINCREMENT id. -/
def mkQuestionRow (q : Question) (rid : Nat) : QuestionRow :=
  ⟨rid, q.prompt, q.option_a, q.option_b, q.option_c, q.answer,
   q.category, q.difficulty, joinTags q.tags⟩

/-- `QuestionRepository.create` (lines 19-36): the INSERT is subject to
the table's CHECK constraints on `answer` and `difficulty`
(`connection.py` lines 60-62); a constraint violation raises, modelled
as `none`.  On success the new row id is returned. -/
def QuestionRepository.create (q : Question) (t : QuestionsTable) :
    Option (Nat × QuestionsTable) :=
  if (q.answer = "A" ∨ q.answer = "B" ∨ q.answer = "C") ∧
     (q.difficulty = "Easy" ∨ q.difficulty = "Medium" ∨
      q.difficulty = "Hard") then
    some (t.nextId, ⟨t.rows ++ [mkQuestionRow q t.nextId], t.nextId + 1⟩)
  else none

/-- `QuestionRepository.get_by_id` (lines 38-48):
`SELECT * FROM questions WHERE id = ?`, first row converted. -/
def QuestionRepository.get_by_id (qid : Nat) (t : QuestionsTable) :
    Option Question :=
  match t.rows.find? (fun r => r.id == qid) with
  | some r => some (rowToQuestion r)
  | none => none

/-- A question that is valid per `Question.is_valid` but whose tag list
does not survive the comma-delimited text serialization. -/
def tagRoundtripQuestion : Question :=
  { prompt := "What is 1 + 1?", option_a := "1", option_b := "2",
    option_c := "3", answer := "B", category := "Math",
    difficulty := "Easy", tags := ["x,y"] }

/-- A well-behaved question for exercising the create/get round trip. -/
def roundtripExampleQuestion : Question :=
  { prompt := "Which keyword defines a function?", option_a := "function",
    option_b := "def", option_c := "func", answer := "B",
    category := "Python", difficulty := "Easy",
    tags := ["python", "syntax"] }

/-- Truthiness of the optional string filters of
`QuestionRepository.get_random_questions`: `if category:` adds the
condition only when the value is neither `None` nor the empty string. -/
def optStrTruthy : Option String → Bool
  | none => false
  | some s => s != ""

/-- The WHERE clause `get_random_questions` builds (lines 140-153). -/
def rowMatchesFilters (category difficulty : Option String)
    (r : QuestionRow) : Bool :=
  (if optStrTruthy category then r.category == category.getD "" else true) &&
  (if optStrTruthy difficulty then r.difficulty == difficulty.getD ""
   else true)

/-- `QuestionRepository.get_random_questions` (lines 136-162):
`ORDER BY RANDOM() LIMIT count` over the filtered rows, each row
converted by `_row_to_question`.  The store-native random ordering is
the nondeterministic input `shuffled`; the theorems constrain it to be
a permutation of the filtered rows. -/
def get_random_questions (count : Nat) (shuffled : List QuestionRow) :
    List Question :=
  (shuffled.take count).map rowToQuestion

/-! ## User repository (`repository.py` lines 208-286) -/

/-- A row of the `users` table (`created_at` omitted); `last_login` is
NULL until the first successful login; timestamps are abstract ticks. -/
structure UserRow where
  id : Nat
  username : String
  password_hash : String
  role : String
  is_active : Bool
  last_login : Option Nat
deriving DecidableEq

/-- The `User` dataclass (`user.py`, lines 6-16), minus `created_at`. -/
structure User where
  id : Option Nat := none
  username : String := ""
  password_hash : String := ""
  role : String := "user"
  is_active : Bool := true
  last_login : Option Nat := none
deriving DecidableEq

/-- `UserRepository._row_to_user` (lines 261-286). -/
def rowToUser (r : UserRow) : User :=
  { id := some r.id, username := r.username,
    password_hash := r.password_hash, role := r.role,
    is_active := r.is_active, last_login := r.last_login }

/-- `UserRepository.get_by_username` (lines 226-236):
`SELECT * FROM users WHERE username = ?`, first row converted. -/
def UserRepository.get_by_username (username : String)
    (rows : List UserRow) : Option User :=
  match rows.find? (fun r => r.username == username) with
  | some r => some (rowToUser r)
  | none => none

/-- `UserRepository.update_last_login` (lines 251-259):
`UPDATE users SET last_login = CURRENT_TIMESTAMP WHERE id = ?`; `now`
stands for the CURRENT_TIMESTAMP the store would write. -/
def UserRepository.update_last_login (uid : Nat) (now : Nat)
    (rows : List UserRow) : List UserRow :=
  rows.map (fun r =>
    if r.id == uid then { r with last_login := some now } else r)

/-- `UserRepository.authenticate` (lines 238-249): fetch by username,
compare the stored credential against the given password by direct
equality, require the active flag; update `last_login` only on
success.  The fetched user object (with its pre-login `last_login`) is
what gets returned. -/
def UserRepository.authenticate (username password : String) (now : Nat)
    (rows : List UserRow) : Option User × List UserRow :=
  match UserRepository.get_by_username username rows with
  | some user =>
    if user.password_hash == password && user.is_active then
      (some user,
       match user.id with
       | some uid => UserRepository.update_last_login uid now rows
       | none => rows)
    else (none, rows)
  | none => (none, rows)

/-- The only user `DatabaseManager._insert_sample_data`
(`connection.py`, lines 135-142) puts into a freshly initialized
store: the admin account with the demo password, active by default,
never logged in. -/
def freshUsers : List UserRow :=
  [⟨1, "admin", "admin123", "admin", true, none⟩]

/-! ## Quiz window countdown (`quiz_app/gui/quiz_window.py`)

The countdown is modelled as a discrete transition system: one
application of `update_timer` is one invocation of
`QuizWindow._update_timer` (the first happens immediately on start,
each later one is scheduled one second after the previous). -/

/-- A persisted result row as `QuizService.save_quiz_result` (lines
187-223) writes it for an anonymous session: the score and the
question count. -/
structure SavedResult where
  score : Nat
  total_questions : Nat
deriving DecidableEq

/-- The quiz-window state the countdown touches: seconds remaining,
the completion flag, the per-session answer list and the rows
persisted so far (`QuizWindow.__init__`, lines 34-40). -/
structure QuizSession where
  time_remaining : Int
  quiz_completed : Bool
  user_answers : List String
  persisted : List SavedResult
deriving DecidableEq

/-- `QuizWindow._finish_quiz` (lines 426-471): mark the session
completed, pad the answer list with blanks up to the question count,
score it with `calculate_score`, and persist one result row. -/
def finish_quiz (questions : List Question) (s : QuizSession) :
    QuizSession :=
  let answers := s.user_answers ++
    List.replicate (questions.length - s.user_answers.length) ""
  { s with quiz_completed := true,
           user_answers := answers,
           persisted := s.persisted ++
             [⟨(calculate_score questions answers).1, questions.length⟩] }

/-- One invocation of `QuizWindow._update_timer` (lines 305-332) with
the timer shown and auto-submit enabled: a completed session ignores
the tick; at zero remaining the quiz is force-finished; otherwise the
countdown decrements and the next tick is scheduled a second later. -/
def update_timer (questions : List Question) (s : QuizSession) :
    QuizSession :=
  if s.quiz_completed then s
  else if s.time_remaining ≤ 0 then finish_quiz questions s
  else { s with time_remaining := s.time_remaining - 1 }

/-- The session state at quiz start for time budget `total`: full
countdown, no answers recorded, nothing persisted. -/
def initialSession (total : Int) : QuizSession :=
  { time_remaining := total, quiz_completed := false,
    user_answers := [], persisted := [] }

/-- A two-unit migration sequence over a counter schema, used to
exercise the generic engine theorems on concrete data. -/
def exampleMigs : List (Migration Nat) :=
  [⟨"001", "first", fun n => some (n + 1)⟩,
   ⟨"002", "second", fun n => some (n * 2)⟩]

/-! ### Sorting facts -/

theorem charListLe_cons_iff {a b : Char} {as bs : List Char} :
    charListLe (a :: as) (b :: bs) = true ↔
      a.toNat < b.toNat ∨ (a.toNat = b.toNat ∧ charListLe as bs = true) := by
  by_cases h1 : a.toNat < b.toNat
  · simp [charListLe, h1]
  · by_cases h2 : b.toNat < a.toNat
    · simp [charListLe, h1, h2]
      omega
    · have heq : a.toNat = b.toNat := by omega
      simp [charListLe, h1, h2, heq]

theorem charListLe_total :
    ∀ as bs : List Char, charListLe as bs = true ∨ charListLe bs as = true
  | [], _ => Or.inl rfl
  | _ :: _, [] => Or.inr rfl
  | a :: as, b :: bs => by
    rcases Nat.lt_trichotomy a.toNat b.toNat with h | h | h
    · exact Or.inl (charListLe_cons_iff.mpr (Or.inl h))
    · rcases charListLe_total as bs with ih | ih
      · exact Or.inl (charListLe_cons_iff.mpr (Or.inr ⟨h, ih⟩))
      · exact Or.inr (charListLe_cons_iff.mpr (Or.inr ⟨h.symm, ih⟩))
    · exact Or.inr (charListLe_cons_iff.mpr (Or.inl h))

theorem charListLe_trans :
    ∀ as bs cs : List Char, charListLe as bs = true →
      charListLe bs cs = true → charListLe as cs = true
  | [], _, _, _, _ => rfl
  | _ :: _, [], _, hab, _ => by simp [charListLe] at hab
  | _ :: _, _ :: _, [], _, hbc => by simp [charListLe] at hbc
  | a :: as, b :: bs, c :: cs, hab, hbc => by
    rcases charListLe_cons_iff.mp hab with h1 | ⟨h1, h1t⟩ <;>
      rcases charListLe_cons_iff.mp hbc with h2 | ⟨h2, h2t⟩
    · exact charListLe_cons_iff.mpr (Or.inl (h1.trans h2))
    · exact charListLe_cons_iff.mpr (Or.inl (h2 ▸ h1))
    · exact charListLe_cons_iff.mpr (Or.inl (h1 ▸ h2))
    · exact charListLe_cons_iff.mpr
        (Or.inr ⟨h1.trans h2, charListLe_trans as bs cs h1t h2t⟩)

theorem strLe_total (a b : String) : strLe a b = true ∨ strLe b a = true :=
  charListLe_total a.data b.data

theorem strLe_trans {a b c : String} (h1 : strLe a b = true)
    (h2 : strLe b c = true) : strLe a c = true :=
  charListLe_trans a.data b.data c.data h1 h2

theorem mem_insertKeyLe (key : α → String) (m a : α) :
    ∀ l : List α, a ∈ insertKeyLe key m l ↔ a = m ∨ a ∈ l
  | [] => by simp [insertKeyLe]
  | x :: xs => by
    by_cases h : strLe (key m) (key x) = true
    · simp [insertKeyLe, h]
    · simp only [insertKeyLe, if_neg h, List.mem_cons,
        mem_insertKeyLe key m a xs]
      tauto

theorem mem_sortKeyLe (key : α → String) (a : α) :
    ∀ l : List α, a ∈ sortKeyLe key l ↔ a ∈ l
  | [] => Iff.rfl
  | x :: xs => by
    simp only [sortKeyLe, mem_insertKeyLe, List.mem_cons,
      mem_sortKeyLe key a xs]

theorem perm_insertKeyLe (key : α → String) (m : α) :
    ∀ l : List α, List.Perm (insertKeyLe key m l) (m :: l)
  | [] => List.Perm.refl _
  | x :: xs => by
    by_cases h : strLe (key m) (key x) = true
    · simp [insertKeyLe, h]
    · simpa [insertKeyLe, h] using
        ((perm_insertKeyLe key m xs).cons x).trans (List.Perm.swap m x xs)

theorem perm_sortKeyLe (key : α → String) :
    ∀ l : List α, List.Perm (sortKeyLe key l) l
  | [] => List.Perm.refl _
  | x :: xs =>
    (perm_insertKeyLe key x (sortKeyLe key xs)).trans
      ((perm_sortKeyLe key xs).cons x)

theorem pairwise_insertKeyLe {key : α → String} {m : α} :
    ∀ {l : List α}, l.Pairwise (fun a b => strLe (key a) (key b) = true) →
      (insertKeyLe key m l).Pairwise
        (fun a b => strLe (key a) (key b) = true)
  | [], _ => by simp [insertKeyLe]
  | x :: xs, h => by
    rcases List.pairwise_cons.mp h with ⟨hx, hxs⟩
    by_cases hmx : strLe (key m) (key x) = true
    · rw [insertKeyLe, if_pos hmx]
      refine List.pairwise_cons.mpr ⟨?_, h⟩
      intro b hb
      rcases List.mem_cons.mp hb with rfl | hb
      · exact hmx
      · exact strLe_trans hmx (hx b hb)
    · rw [insertKeyLe, if_neg hmx]
      refine List.pairwise_cons.mpr ⟨?_, pairwise_insertKeyLe hxs⟩
      intro b hb
      rcases (mem_insertKeyLe key m b xs).mp hb with heq | hb
      · subst heq
        exact (strLe_total (key x) (key b)).resolve_right hmx
      · exact hx b hb

theorem pairwise_sortKeyLe (key : α → String) :
    ∀ l : List α,
      (sortKeyLe key l).Pairwise (fun a b => strLe (key a) (key b) = true)
  | [] => List.Pairwise.nil
  | _ :: xs => pairwise_insertKeyLe (pairwise_sortKeyLe key xs)

/-! ### Behaviour of the migration loop -/

theorem migrateLoop_success (dur : Nat) :
    ∀ (p : List (Migration σ)) (recs : List MigRecord) (sch sch' : σ),
      (∀ m ∈ p, ∀ r ∈ recs, r.version ≠ m.version) →
      (p.map Migration.version).Nodup →
      runAll p sch = some sch' →
      migrateLoop dur p ⟨some recs, sch⟩ =
        (true, ⟨some (recs ++ p.map (mkRecord dur)), sch'⟩)
  | [], recs, sch, sch', _, _, hrun => by
    simp [runAll] at hrun
    simp [migrateLoop, hrun]
  | m :: rest, recs, sch, sch', hd, hnd, hrun => by
    simp only [runAll] at hrun
    cases hup : m.up sch with
    | none => rw [hup] at hrun; exact absurd hrun (by simp)
    | some sch1 =>
      rw [hup] at hrun
      have hnotin : recs.any (fun r => r.version == m.version) = false := by
        simp only [List.any_eq_false, beq_iff_eq]
        intro r hr
        exact hd m (List.mem_cons_self m rest) r hr
      have hnd0 : m.version ∉ rest.map Migration.version ∧
          (rest.map Migration.version).Nodup := List.nodup_cons.mp hnd
      have hd' : ∀ m' ∈ rest, ∀ r ∈ recs ++ [mkRecord dur m],
          r.version ≠ m'.version := by
        intro m' hm' r hr
        rcases List.mem_append.mp hr with hr | hr
        · exact hd m' (List.mem_cons_of_mem _ hm') r hr
        · rcases List.mem_singleton.mp hr with rfl
          intro hcontra
          exact hnd0.1 (by simpa [← hcontra] using
            List.mem_map_of_mem Migration.version hm')
      have ih := migrateLoop_success dur rest (recs ++ [mkRecord dur m])
        sch1 sch' hd' hnd0.2 hrun
      simp only [migrateLoop, apply_migration, hup, hnotin, if_false,
        Bool.false_eq_true]
      simpa [mkRecord, List.append_assoc] using ih

theorem migrateLoop_fail (dur : Nat) :
    ∀ (p1 : List (Migration σ)) (m : Migration σ) (p2 : List (Migration σ))
      (recs : List MigRecord) (sch sch1 : σ),
      (∀ m' ∈ p1 ++ [m], ∀ r ∈ recs, r.version ≠ m'.version) →
      ((p1 ++ [m]).map Migration.version).Nodup →
      runAll p1 sch = some sch1 →
      m.up sch1 = none →
      migrateLoop dur (p1 ++ m :: p2) ⟨some recs, sch⟩ =
        (false, ⟨some (recs ++ p1.map (mkRecord dur)), sch1⟩)
  | [], m, p2, recs, sch, sch1, hd, _, hrun, hup => by
    simp only [runAll, Option.some.injEq] at hrun
    subst hrun
    simp [migrateLoop, apply_migration, hup]
  | mh :: p1, m, p2, recs, sch, sch1, hd, hnd, hrun, hup => by
    simp only [runAll] at hrun
    cases hups : mh.up sch with
    | none => rw [hups] at hrun; exact absurd hrun (by simp)
    | some schm =>
      rw [hups] at hrun
      have hnotin : recs.any (fun r => r.version == mh.version) = false := by
        simp only [List.any_eq_false, beq_iff_eq]
        intro r hr
        exact hd mh (by simp) r hr
      have hnd0 : mh.version ∉ (p1 ++ [m]).map Migration.version ∧
          ((p1 ++ [m]).map Migration.version).Nodup := List.nodup_cons.mp hnd
      have hd' : ∀ m' ∈ p1 ++ [m], ∀ r ∈ recs ++ [mkRecord dur mh],
          r.version ≠ m'.version := by
        intro m' hm' r hr
        rcases List.mem_append.mp hr with hr | hr
        · exact hd m' (List.mem_cons_of_mem _ hm') r hr
        · rcases List.mem_singleton.mp hr with rfl
          intro hcontra
          exact hnd0.1 (by simpa [← hcontra] using
            List.mem_map_of_mem Migration.version hm')
      have ih := migrateLoop_fail dur p1 m p2 (recs ++ [mkRecord dur mh])
        schm sch1 hd' hnd0.2 hrun hup
      simp only [List.cons_append, migrateLoop, apply_migration, hups, hnotin,
        if_false, Bool.false_eq_true]
      simpa [mkRecord, List.append_assoc] using ih

theorem runAll_none_decomp :
    ∀ (p : List (Migration σ)) (sch : σ), runAll p sch = none →
      ∃ p1 m p2 sch1, p = p1 ++ m :: p2 ∧ runAll p1 sch = some sch1 ∧
        m.up sch1 = none
  | [], sch, h => by simp [runAll] at h
  | m :: rest, sch, h => by
    cases hup : m.up sch with
    | none => exact ⟨[], m, rest, sch, rfl, rfl, hup⟩
    | some sch1 =>
      rw [runAll, hup] at h
      obtain ⟨p1, m', p2, schx, hdecomp, hrun, hfail⟩ :=
        runAll_none_decomp rest sch1 h
      exact ⟨m :: p1, m', p2, schx, by simp [hdecomp],
        by simp [runAll, hup, hrun], hfail⟩

/-! ### Claim C1 -/

/-- C1: `MigrationManager.migrate` applies each pending migration in
version order (the order of the pending list), each inside its own
transaction that records version, description and duration before
commit; if any unit's application fails, that unit's transaction is
rolled back (the state after that unit is exactly the state before it),
no later pending unit is attempted, and `migrate` returns `False`; it
returns `True` exactly when every pending unit was applied, in which
case the tracking table has gained one record per pending unit, in
order. -/
theorem migrate_transactional_in_order (migs : List (Migration σ))
    (dur : Nat) (s : MState σ)
    (hnd : (migs.map Migration.version).Nodup)
    (s1 : MState σ) (p : List (Migration σ)) (recs0 : List MigRecord)
    (hs1 : s1 = create_migrations_table s)
    (hp : p = get_pending_migrations migs s1)
    (hrecs : s1.tracking = some recs0) :
    ((migrate dur migs s).1 = true ↔ (runAll p s1.schema).isSome) ∧
    (∀ sch', runAll p s1.schema = some sch' →
      migrate dur migs s =
        (true, ⟨some (recs0 ++ p.map (mkRecord dur)), sch'⟩)) ∧
    (∀ p1 m p2 sch1, p = p1 ++ m :: p2 → runAll p1 s1.schema = some sch1 →
      m.up sch1 = none →
      migrate dur migs s =
        (false, ⟨some (recs0 ++ p1.map (mkRecord dur)), sch1⟩)) := by
  obtain ⟨tr, sch⟩ := s1
  simp only at hrecs
  subst hrecs
  have hmig : migrate dur migs s = migrateLoop dur p ⟨some recs0, sch⟩ := by
    simp only [migrate]
    rw [← hs1, ← hp]
  have hd : ∀ m ∈ p, ∀ r ∈ recs0, r.version ≠ m.version := by
    intro m hm r hr
    rw [hp] at hm
    have hmem := List.mem_filter.mp hm
    have hnotmem : m.version ∉
        get_applied_migrations (⟨some recs0, sch⟩ : MState σ) := by
      simpa using hmem.2
    intro hcontra
    apply hnotmem
    simp only [get_applied_migrations]
    exact (mem_sortKeyLe id m.version _).mpr
      (hcontra ▸ List.mem_map_of_mem MigRecord.version hr)
  have hndp : (p.map Migration.version).Nodup := by
    rw [hp]
    exact List.Nodup.sublist
      (List.Sublist.map Migration.version (List.filter_sublist migs)) hnd
  have hC2 : ∀ sch', runAll p sch = some sch' →
      migrate dur migs s =
        (true, ⟨some (recs0 ++ p.map (mkRecord dur)), sch'⟩) := by
    intro sch' hrun
    rw [hmig]
    exact migrateLoop_success dur p recs0 sch sch' hd hndp hrun
  have hC3 : ∀ p1 m p2 sch1, p = p1 ++ m :: p2 →
      runAll p1 sch = some sch1 → m.up sch1 = none →
      migrate dur migs s =
        (false, ⟨some (recs0 ++ p1.map (mkRecord dur)), sch1⟩) := by
    intro p1 m p2 sch1 hdecomp hrun hup
    have hsub : List.Sublist (p1 ++ [m]) p := by
      rw [hdecomp]
      exact ((List.nil_sublist p2).cons₂ m).append_left p1
    have hd' : ∀ m' ∈ p1 ++ [m], ∀ r ∈ recs0, r.version ≠ m'.version :=
      fun m' hm' => hd m' (hsub.mem hm')
    have hnd' : ((p1 ++ [m]).map Migration.version).Nodup :=
      List.Nodup.sublist (List.Sublist.map Migration.version hsub) hndp
    rw [hmig, hdecomp]
    exact migrateLoop_fail dur p1 m p2 recs0 sch sch1 hd' hnd' hrun hup
  refine ⟨⟨?_, ?_⟩, hC2, hC3⟩
  · intro htrue
    by_contra hnone
    rw [Option.not_isSome_iff_eq_none] at hnone
    obtain ⟨p1, m, p2, sch1, hdecomp, hrun, hup⟩ :=
      runAll_none_decomp p sch hnone
    rw [hC3 p1 m p2 sch1 hdecomp hrun hup] at htrue
    simp at htrue
  · intro hsome
    obtain ⟨sch', hsch'⟩ := Option.isSome_iff_exists.mp hsome
    rw [hC2 sch' hsch']

/-- Witness for C1: both units of `exampleMigs` apply from the empty
state, in order, each recorded with its duration. -/
theorem migrate_transactional_in_order_witness :
    migrate 3 exampleMigs (⟨none, 0⟩ : MState Nat) =
      (true, ⟨some [⟨"001", "first", 3⟩, ⟨"002", "second", 3⟩], 2⟩) := by
  have h := migrate_transactional_in_order exampleMigs 3 ⟨none, 0⟩
    (by decide)
    (create_migrations_table ⟨none, 0⟩)
    (get_pending_migrations exampleMigs (create_migrations_table ⟨none, 0⟩))
    [] rfl rfl rfl
  exact h.2.1 2 rfl

/-! ### Claim C2 -/

theorem create_migrations_table_of_some {s : MState σ} {r : List MigRecord}
    (h : s.tracking = some r) : create_migrations_table s = s := by
  obtain ⟨tr, sch⟩ := s
  simp only at h
  subst h
  rfl

theorem migrateLoop_true_versions (dur : Nat) :
    ∀ (p : List (Migration σ)) (recs : List MigRecord) (sch : σ)
      (s2 : MState σ),
      migrateLoop dur p ⟨some recs, sch⟩ = (true, s2) →
      ∃ recs2, s2.tracking = some recs2 ∧
        ∀ v, (v ∈ recs.map MigRecord.version ∨
              v ∈ p.map Migration.version) →
          v ∈ recs2.map MigRecord.version
  | [], recs, sch, s2, h => by
    simp only [migrateLoop, Prod.mk.injEq, true_and] at h
    subst h
    exact ⟨recs, rfl, by simp⟩
  | m :: rest, recs, sch, s2, h => by
    simp only [migrateLoop, apply_migration] at h
    cases hup : m.up sch with
    | none => rw [hup] at h; simp at h
    | some sch1 =>
      rw [hup] at h
      cases hdup : recs.any (fun r => r.version == m.version) with
      | true => rw [hdup] at h; simp at h
      | false =>
        rw [hdup] at h
        simp only [if_false, Bool.false_eq_true] at h
        obtain ⟨recs2, htr, hsup⟩ :=
          migrateLoop_true_versions dur rest
            (recs ++ [⟨m.version, m.description, dur⟩]) sch1 s2 h
        refine ⟨recs2, htr, ?_⟩
        intro v hv
        rcases hv with hv | hv
        · exact hsup v (Or.inl (by simp [hv]))
        · rw [List.map_cons, List.mem_cons] at hv
          rcases hv with hv | hv
          · exact hsup v (Or.inl (by simp [hv]))
          · exact hsup v (Or.inr hv)

/-- C2: after a successful `MigrationManager.migrate`, a second call is
idempotent: it finds zero pending migrations, leaves the database state
exactly as it was, and returns `True`. -/
theorem migrate_idempotent (migs : List (Migration σ)) (dur dur2 : Nat)
    (s : MState σ) (h : (migrate dur migs s).1 = true) :
    get_pending_migrations migs
        (create_migrations_table (migrate dur migs s).2) = [] ∧
    migrate dur2 migs (migrate dur migs s).2 =
      (true, (migrate dur migs s).2) := by
  obtain ⟨recs0, sch0, hcreate⟩ :
      ∃ recs0 sch0, create_migrations_table s = ⟨some recs0, sch0⟩ := by
    obtain ⟨tr, sch⟩ := s
    cases tr with
    | none => exact ⟨[], sch, rfl⟩
    | some r => exact ⟨r, sch, rfl⟩
  have hmig : migrate dur migs s =
      migrateLoop dur
        (get_pending_migrations migs (⟨some recs0, sch0⟩ : MState σ))
        ⟨some recs0, sch0⟩ := by
    simp only [migrate]
    rw [hcreate]
  have hloop : migrateLoop dur
      (get_pending_migrations migs (⟨some recs0, sch0⟩ : MState σ))
      ⟨some recs0, sch0⟩ = (true, (migrate dur migs s).2) := by
    rw [← hmig]
    exact Prod.ext h rfl
  obtain ⟨recs2, htr2, hsup⟩ :=
    migrateLoop_true_versions dur _ recs0 sch0 _ hloop
  have happlied : ∀ m ∈ migs,
      m.version ∈ recs2.map MigRecord.version := by
    intro m hm
    by_cases hv : m.version ∈
        get_applied_migrations (⟨some recs0, sch0⟩ : MState σ)
    · simp only [get_applied_migrations] at hv
      exact hsup m.version (Or.inl ((mem_sortKeyLe id m.version _).mp hv))
    · refine hsup m.version (Or.inr ?_)
      refine List.mem_map_of_mem Migration.version ?_
      have hmem : m ∈ List.filter
          (fun m => decide (m.version ∉
            get_applied_migrations (⟨some recs0, sch0⟩ : MState σ))) migs :=
        List.mem_filter.mpr ⟨hm, by simpa using hv⟩
      simpa [get_pending_migrations] using hmem
  have hcreate2 : create_migrations_table (migrate dur migs s).2 =
      (migrate dur migs s).2 := create_migrations_table_of_some htr2
  have hpending2 : get_pending_migrations migs (migrate dur migs s).2 = [] := by
    simp only [get_pending_migrations, List.filter_eq_nil_iff]
    intro m hm
    simp only [get_applied_migrations, htr2, decide_eq_true_eq, Decidable.not_not]
    exact (mem_sortKeyLe id m.version _).mpr (happlied m hm)
  refine ⟨by rw [hcreate2]; exact hpending2, ?_⟩
  have hunfold : migrate dur2 migs (migrate dur migs s).2 =
      migrateLoop dur2
        (get_pending_migrations migs
          (create_migrations_table (migrate dur migs s).2))
        (create_migrations_table (migrate dur migs s).2) := rfl
  rw [hunfold, hcreate2, hpending2]
  rfl

/-- Witness for C2 on `exampleMigs`: after a successful first run, the
second run sees no pending migrations and changes nothing. -/
theorem migrate_idempotent_witness :
    get_pending_migrations exampleMigs
        (create_migrations_table (migrate 3 exampleMigs
          (⟨none, 0⟩ : MState Nat)).2) = [] ∧
    migrate 4 exampleMigs (migrate 3 exampleMigs (⟨none, 0⟩ : MState Nat)).2 =
      (true, (migrate 3 exampleMigs (⟨none, 0⟩ : MState Nat)).2) :=
  migrate_idempotent exampleMigs 3 4 ⟨none, 0⟩ rfl

/-! ### Claim C8 -/

/-- C8: when the migration tracking table does not exist
(`tracking = none`), `get_pending_migrations` treats the applied set as
empty and returns every registered migration as pending, in the
version-sorted registration order, with no migration lost, instead of
raising an error. -/
theorem pending_all_when_tracking_table_missing (migs : List (Migration σ))
    (s : MState σ) (h : s.tracking = none) :
    get_pending_migrations (registerMigrations migs) s =
      registerMigrations migs ∧
    (registerMigrations migs).Pairwise
      (fun a b => strLe a.version b.version = true) ∧
    List.Perm (registerMigrations migs) migs := by
  have happ : get_applied_migrations s = [] := by
    simp [get_applied_migrations, h]
  refine ⟨?_, pairwise_sortKeyLe Migration.version migs,
    perm_sortKeyLe Migration.version migs⟩
  simp [get_pending_migrations, happ]

/-- Witness for C8 on `exampleMigs` over a state without the tracking
table. -/
theorem pending_all_when_tracking_table_missing_witness :
    get_pending_migrations (registerMigrations exampleMigs)
        (⟨none, 0⟩ : MState Nat) = registerMigrations exampleMigs ∧
    (registerMigrations exampleMigs).Pairwise
      (fun a b => strLe a.version b.version = true) ∧
    List.Perm (registerMigrations exampleMigs) exampleMigs :=
  pending_all_when_tracking_table_missing exampleMigs ⟨none, 0⟩ rfl

/-! ### Claim C3 -/

theorem runAll_theMigrations (B : List String) (hq : "questions" ∉ B)
    (hu : "users" ∉ B) (hr : "quiz_results" ∉ B) :
    runAll theMigrations ⟨B, [], false, false⟩ =
      some ⟨B ++ ["questions", "users", "quiz_results"],
        ["idx_questions_category", "idx_questions_created_at",
         "idx_users_username", "idx_users_role", "idx_questions_difficulty",
         "idx_quiz_results_user", "idx_quiz_results_completed"],
        true, true⟩ := by
  have hreg : theMigrations = [initialSchemaMigration, addIndexesMigration,
      addTagsColumnMigration, addDifficultyLevelsMigration,
      addQuizResultsTrackingMigration] := rfl
  have hu1 : "users" ∉ B ++ ["questions"] := by
    simp only [List.mem_append, List.mem_singleton]
    rintro (h | h)
    · exact hu h
    · exact absurd h (by decide)
  have hr1 : "quiz_results" ∉ B ++ ["questions", "users"] := by
    simp only [List.mem_append, List.mem_cons, List.mem_singleton]
    rintro (h | h | h)
    · exact hr h
    · exact absurd h (by decide)
    · exact absurd h (by decide)
  have m1 : initialSchemaMigration.up ⟨B, [], false, false⟩ =
      some ⟨B ++ ["questions", "users"], [], false, false⟩ := by
    simp [initialSchemaMigration, createTableIfNotExists, hq, hu1]
  have m2 : addIndexesMigration.up
      ⟨B ++ ["questions", "users"], [], false, false⟩ =
      some ⟨B ++ ["questions", "users"],
        ["idx_questions_category", "idx_questions_created_at",
         "idx_users_username", "idx_users_role"], false, false⟩ := by
    simp [addIndexesMigration, createIndexIfNotExists]
  have m3 : addTagsColumnMigration.up
      ⟨B ++ ["questions", "users"],
        ["idx_questions_category", "idx_questions_created_at",
         "idx_users_username", "idx_users_role"], false, false⟩ =
      some ⟨B ++ ["questions", "users"],
        ["idx_questions_category", "idx_questions_created_at",
         "idx_users_username", "idx_users_role"], true, false⟩ := by
    simp [addTagsColumnMigration]
  have m4 : addDifficultyLevelsMigration.up
      ⟨B ++ ["questions", "users"],
        ["idx_questions_category", "idx_questions_created_at",
         "idx_users_username", "idx_users_role"], true, false⟩ =
      some ⟨B ++ ["questions", "users"],
        ["idx_questions_category", "idx_questions_created_at",
         "idx_users_username", "idx_users_role",
         "idx_questions_difficulty"], true, true⟩ := by
    simp [addDifficultyLevelsMigration, createIndexIfNotExists]
  have m5 : addQuizResultsTrackingMigration.up
      ⟨B ++ ["questions", "users"],
        ["idx_questions_category", "idx_questions_created_at",
         "idx_users_username", "idx_users_role",
         "idx_questions_difficulty"], true, true⟩ =
      some ⟨B ++ ["questions", "users", "quiz_results"],
        ["idx_questions_category", "idx_questions_created_at",
         "idx_users_username", "idx_users_role", "idx_questions_difficulty",
         "idx_quiz_results_user", "idx_quiz_results_completed"],
        true, true⟩ := by
    simp [addQuizResultsTrackingMigration, createTableIfNotExists,
      createIndexIfNotExists, hr1]
  rw [hreg]
  simp only [runAll, m1, m2, m3, m4, m5]

/-- C3 (amended): `MigrationManager.reset_database` drops all known
tables except SQLite's own internal `sqlite_sequence` table — the
migration engine's bookkeeping table `schema_migrations` is dropped
with the rest — and then reruns every migration from an empty
applied-set, succeeding with a freshly rebuilt schema and a fresh set
of five tracking records. -/
theorem reset_database_rebuilds_from_scratch (dur : Nat)
    (s : MState SqlSchema) :
    (reset_drop_tables s).tracking = none ∧
    reset_database dur s =
      (true,
       ⟨some (theMigrations.map (mkRecord dur)),
        ⟨s.schema.tables.filter (fun t => t == "sqlite_sequence") ++
           ["questions", "users", "quiz_results"],
         ["idx_questions_category", "idx_questions_created_at",
          "idx_users_username", "idx_users_role", "idx_questions_difficulty",
          "idx_quiz_results_user", "idx_quiz_results_completed"],
         true, true⟩⟩) := by
  refine ⟨rfl, ?_⟩
  have hB : ∀ x,
      x ∈ s.schema.tables.filter (fun t => t == "sqlite_sequence") →
      x = "sqlite_sequence" := by
    intro x hx
    simpa using (List.mem_filter.mp hx).2
  have hq : "questions" ∉
      s.schema.tables.filter (fun t => t == "sqlite_sequence") :=
    fun h => absurd (hB _ h) (by decide)
  have hu : "users" ∉
      s.schema.tables.filter (fun t => t == "sqlite_sequence") :=
    fun h => absurd (hB _ h) (by decide)
  have hr : "quiz_results" ∉
      s.schema.tables.filter (fun t => t == "sqlite_sequence") :=
    fun h => absurd (hB _ h) (by decide)
  have hmig : reset_database dur s =
      migrateLoop dur theMigrations
        ⟨some [], ⟨s.schema.tables.filter (fun t => t == "sqlite_sequence"),
          [], false, false⟩⟩ := rfl
  rw [hmig]
  have hsucc := migrateLoop_success dur theMigrations []
    (⟨s.schema.tables.filter (fun t => t == "sqlite_sequence"),
      [], false, false⟩ : SqlSchema)
    (⟨s.schema.tables.filter (fun t => t == "sqlite_sequence") ++
        ["questions", "users", "quiz_results"],
      ["idx_questions_category", "idx_questions_created_at",
       "idx_users_username", "idx_users_role", "idx_questions_difficulty",
       "idx_quiz_results_user", "idx_quiz_results_completed"],
      true, true⟩ : SqlSchema)
    (by intro m _ r hr2; simp at hr2)
    (by decide)
    (runAll_theMigrations _ hq hu hr)
  simpa using hsucc

set_option maxRecDepth 10000 in
/-- C3 (counterexample to the claim as stated): on a populated
database, the migration bookkeeping table is not excepted from the drop
— `reset_drop_tables` removes it — and `reset_database` differs from
the behaviour the claim describes (dropping everything but the
bookkeeping table and then migrating). -/
theorem reset_database_counterexample :
    populatedState.tracking ≠ none ∧
    (reset_drop_tables populatedState).tracking = none ∧
    reset_database 0 populatedState ≠
      reset_database_claimed 0 populatedState := by
  decide

/-! ### Claim C5 -/

theorem calculate_score_length :
    ∀ (qs : List Question) (as : List String),
      (calculate_score qs as).2.length = qs.length
  | [], _ => by simp [calculate_score]
  | _ :: qs, [] => by
    simp [calculate_score, calculate_score_length qs []]
  | q :: qs, a :: as => by
    simp [calculate_score, calculate_score_length qs as]

theorem calculate_score_get :
    ∀ (qs : List Question) (as : List String) (i : Nat) (q : Question),
      qs.get? i = some q →
      (calculate_score qs as).2.get? i =
        some (decide (as.get? i = some q.answer))
  | [], _, i, q, h => by simp at h
  | q' :: qs, [], 0, q, h => by
    have hq : q' = q := by simpa using h
    simp [calculate_score, hq]
  | q' :: qs, [], i + 1, q, h => by
    simpa [calculate_score] using calculate_score_get qs [] i q h
  | q' :: qs, a :: as, 0, q, h => by
    have hq : q' = q := by simpa using h
    by_cases hc : a = q.answer <;> simp [calculate_score, hq, hc]
  | q' :: qs, a :: as, i + 1, q, h => by
    simpa [calculate_score] using calculate_score_get qs as i q h

theorem calculate_score_count :
    ∀ (qs : List Question) (as : List String),
      (calculate_score qs as).1 = (calculate_score qs as).2.count true
  | [], _ => by simp [calculate_score]
  | _ :: qs, [] => by
    simp [calculate_score, calculate_score_count qs [], List.count_cons]
  | q :: qs, a :: as => by
    by_cases hc : a = q.answer <;>
      simp [calculate_score, calculate_score_count qs as, hc, List.count_cons]

/-- C5: `QuizService.calculate_score` marks index `i` correct iff the
recorded answer at `i` equals the question's `answer` field (a missing
answer counts incorrect), and returns the number of correct entries as
the score; on the three-question scenario with user answers
`["A", "B", "B"]` against correct answers A, C, B it yields score 2 and
correct results `[true, false, true]`, from which
`generate_quiz_report` derives percentage 200/3 (66.7 after rounding to
one decimal) and grade `"D"`. -/
theorem calculate_score_spec (questions : List Question)
    (user_answers : List String) :
    ((calculate_score questions user_answers).2.length =
      questions.length) ∧
    (∀ i q, questions.get? i = some q →
      (calculate_score questions user_answers).2.get? i =
        some (decide (user_answers.get? i = some q.answer))) ∧
    ((calculate_score questions user_answers).1 =
      (calculate_score questions user_answers).2.count true) ∧
    (calculate_score scenarioQuestions ["A", "B", "B"] =
      (2, [true, false, true])) ∧
    (report_percentage 2 3 = 200 / 3 ∧
     round (report_percentage 2 3 * 10) = 667 ∧
     report_grade (report_percentage 2 3) = "D") := by
  refine ⟨calculate_score_length questions user_answers,
    fun i q h => calculate_score_get questions user_answers i q h,
    calculate_score_count questions user_answers,
    by decide, ?_, ?_, ?_⟩
  · norm_num [report_percentage]
  · norm_num [report_percentage, round_eq]
  · norm_num [report_percentage, report_grade]

/-- Witness for C5: the scenario run and the grade it produces. -/
theorem calculate_score_spec_witness :
    calculate_score scenarioQuestions ["A", "B", "B"] =
      (2, [true, false, true]) ∧
    report_grade (report_percentage 2 3) = "D" :=
  ⟨(calculate_score_spec scenarioQuestions ["A", "B", "B"]).2.2.2.1,
   (calculate_score_spec scenarioQuestions ["A", "B", "B"]).2.2.2.2.2.2⟩

/-! ### Claim C10 -/

/-- C10: for every `QuizResult` with `total_questions = 0`, the
`percentage` property returns `0` and the `grade` property returns
`"F"`: the division is guarded, so both are total on the zero-total
edge case. -/
theorem quiz_result_zero_total (r : QuizResult)
    (h : r.total_questions = 0) :
    r.percentage = 0 ∧ r.grade = "F" := by
  have hp : r.percentage = 0 := by simp [QuizResult.percentage, h]
  refine ⟨hp, ?_⟩
  rw [QuizResult.grade, hp]
  norm_num

/-- Witness for C10 at a concrete result with a nonzero score and zero
total. -/
theorem quiz_result_zero_total_witness :
    ({ score := 5, total_questions := 0 } : QuizResult).percentage = 0 ∧
    ({ score := 5, total_questions := 0 } : QuizResult).grade = "F" :=
  quiz_result_zero_total { score := 5, total_questions := 0 } rfl

/-! ### Claim C4 -/

theorem string_ne_empty_iff_data (s : String) : s ≠ "" ↔ s.data ≠ [] := by
  obtain ⟨cs⟩ := s
  simp [String.ext_iff]

theorem splitCommaChars_no_comma :
    ∀ t : List Char, ',' ∉ t → splitCommaChars t = [t]
  | [], _ => rfl
  | c :: rest, h => by
    have hc : ¬ c = ',' := fun hc => h (by simp [hc])
    have hrest : ',' ∉ rest := fun hr => h (List.mem_cons_of_mem _ hr)
    simp [splitCommaChars, hc, splitCommaChars_no_comma rest hrest]

theorem splitCommaChars_append :
    ∀ t rest : List Char, ',' ∉ t →
      splitCommaChars (t ++ ',' :: rest) = t :: splitCommaChars rest
  | [], rest, _ => by simp [splitCommaChars]
  | c :: t, rest, h => by
    have hc : ¬ c = ',' := fun hc => h (by simp [hc])
    have ht : ',' ∉ t := fun hr => h (List.mem_cons_of_mem _ hr)
    have ih := splitCommaChars_append t rest ht
    simp [splitCommaChars, hc, ih]

theorem splitCommaChars_joinCommaChars :
    ∀ ts : List (List Char), (∀ t ∈ ts, ',' ∉ t) → ts ≠ [] →
      splitCommaChars (joinCommaChars ts) = ts
  | [], _, hne => absurd rfl hne
  | [t], h, _ => by
    simpa [joinCommaChars] using
      splitCommaChars_no_comma t (h t (by simp))
  | t :: t2 :: ts, h, _ => by
    have ih := splitCommaChars_joinCommaChars (t2 :: ts)
      (fun x hx => h x (List.mem_cons_of_mem _ hx)) (by simp)
    have ht : ',' ∉ t := h t (by simp)
    simp only [joinCommaChars]
    rw [splitCommaChars_append t _ ht, ih]

/-- A tag list survives the comma-delimited text serialization exactly
when each tag is nonempty, comma-free and strip-fixed; this lemma gives
the round trip under those conditions. -/
theorem parseTags_joinTags (tags : List String)
    (h : ∀ tg ∈ tags, tg ≠ "" ∧ ',' ∉ tg.data ∧
      stripChars tg.data = tg.data) :
    parseTags (joinTags tags) = tags := by
  cases tags with
  | nil => rfl
  | cons t ts =>
    have hdata : ∀ tg ∈ t :: ts, tg.data ≠ [] := fun tg htg =>
      (string_ne_empty_iff_data tg).mp (h tg htg).1
    have hJ : joinTags (t :: ts) =
        ⟨joinCommaChars ((t :: ts).map String.data)⟩ := rfl
    have hJne : joinCommaChars ((t :: ts).map String.data) ≠ [] := by
      cases ts with
      | nil => simpa [joinCommaChars] using hdata t (by simp)
      | cons t2 ts2 => simp [joinCommaChars]
    have hsne : joinTags (t :: ts) ≠ "" := by
      rw [hJ]
      exact (string_ne_empty_iff_data _).mpr (by simpa using hJne)
    simp only [parseTags, if_neg hsne]
    have hsplit : splitCommaChars (joinTags (t :: ts)).data =
        (t :: ts).map String.data := by
      rw [hJ]
      exact splitCommaChars_joinCommaChars _
        (by
          intro x hx
          obtain ⟨tg, htg, rfl⟩ := List.mem_map.mp hx
          exact (h tg htg).2.1)
        (by simp)
    rw [hsplit]
    have h1 : ((t :: ts).map String.data).map stripChars =
        (t :: ts).map String.data := by
      rw [List.map_map]
      refine List.map_congr_left ?_
      intro tg htg
      exact (h tg htg).2.2
    rw [h1]
    have h2 : ((t :: ts).map String.data).filter (fun x => !x.isEmpty) =
        (t :: ts).map String.data := by
      refine List.filter_eq_self.mpr ?_
      intro a ha
      obtain ⟨tg, htg, rfl⟩ := List.mem_map.mp ha
      simpa [List.isEmpty_iff] using hdata tg htg
    rw [h2, List.map_map]
    have h3 : ((fun cs => (⟨cs⟩ : String)) ∘ String.data) =
        (id : String → String) := funext fun s => rfl
    rw [h3, List.map_id]

theorem find?_append_of_none {p : α → Bool} :
    ∀ {l₁ : List α} (l₂ : List α), l₁.find? p = none →
      (l₁ ++ l₂).find? p = l₂.find? p
  | [], _, _ => rfl
  | a :: l₁, l₂, h => by
    have hpa : p a = false := by
      simpa using List.find?_eq_none.mp h a (by simp)
    have hl₁ : l₁.find? p = none := by
      rw [List.find?_eq_none] at h ⊢
      exact fun x hx => h x (by simp [hx])
    simp only [List.cons_append, List.find?, hpa]
    exact find?_append_of_none l₂ hl₁

/-- C4 (amended): for every question that is valid per
`Question.is_valid`, whose difficulty passes the table's CHECK
constraint, and whose tags are nonempty, comma-free and carry no
surrounding whitespace, `QuestionRepository.create` inserts the row
under the fresh id and `get_by_id` on that id returns a question equal
to the input in every user-set field (prompt, the three options,
answer, category, difficulty, tags), differing only in the assigned id. -/
theorem create_then_get_by_id (t : QuestionsTable) (q : Question)
    (hids : ∀ r ∈ t.rows, r.id < t.nextId)
    (hv : q.is_valid = true)
    (hdiff : q.difficulty = "Easy" ∨ q.difficulty = "Medium" ∨
      q.difficulty = "Hard")
    (htags : ∀ tg ∈ q.tags, tg ≠ "" ∧ ',' ∉ tg.data ∧
      stripChars tg.data = tg.data) :
    QuestionRepository.create q t =
      some (t.nextId, ⟨t.rows ++ [mkQuestionRow q t.nextId], t.nextId + 1⟩) ∧
    QuestionRepository.get_by_id t.nextId
        ⟨t.rows ++ [mkQuestionRow q t.nextId], t.nextId + 1⟩ =
      some { q with id := some t.nextId } := by
  have hans : q.answer = "A" ∨ q.answer = "B" ∨ q.answer = "C" := by
    have hv2 := hv
    simp only [Question.is_valid, Bool.and_eq_true, Bool.or_eq_true,
      beq_iff_eq] at hv2
    tauto
  constructor
  · simp only [QuestionRepository.create, if_pos (And.intro hans hdiff)]
  · have hnone : t.rows.find? (fun r => r.id == t.nextId) = none := by
      rw [List.find?_eq_none]
      intro r hr
      simp [Nat.ne_of_lt (hids r hr)]
    simp only [QuestionRepository.get_by_id]
    rw [find?_append_of_none _ hnone]
    simp only [List.find?, mkQuestionRow, beq_self_eq_true]
    simp [rowToQuestion, parseTags_joinTags q.tags htags]

set_option maxRecDepth 4000 in
/-- C4 (counterexample to the claim as stated): `tagRoundtripQuestion`
is valid per `Question.is_valid`, yet storing it and fetching it back
changes its tags from `["x,y"]` to `["x", "y"]` — the comma-delimited
text column cannot represent a tag containing a comma. -/
theorem create_then_get_by_id_counterexample :
    tagRoundtripQuestion.is_valid = true ∧
    ((QuestionRepository.create tagRoundtripQuestion ⟨[], 1⟩).bind
        (fun r => QuestionRepository.get_by_id r.1 r.2)).map Question.tags =
      some ["x", "y"] ∧
    tagRoundtripQuestion.tags = ["x,y"] := by
  decide

set_option maxRecDepth 4000 in
/-- Witness for C4 at a concrete question and an empty table. -/
theorem create_then_get_by_id_witness :
    QuestionRepository.create roundtripExampleQuestion ⟨[], 1⟩ =
      some (1, ⟨[mkQuestionRow roundtripExampleQuestion 1], 2⟩) ∧
    QuestionRepository.get_by_id 1
        ⟨[mkQuestionRow roundtripExampleQuestion 1], 2⟩ =
      some { roundtripExampleQuestion with id := some 1 } := by
  have := create_then_get_by_id ⟨[], 1⟩ roundtripExampleQuestion
    (by simp) (by decide) (Or.inl rfl) (by decide)
  simpa using this

/-! ### Claim C6 -/

/-- C6: `UserRepository.authenticate` returns the stored user exactly
when a row with that username exists, the stored credential equals the
password by direct equality, and the user is active — and only in that
success case is `last_login` updated; otherwise it returns none and
leaves the table untouched.  Against a freshly initialized store,
`authenticate("admin", "admin123")` returns the admin user (role
`"admin"`) and stamps its `last_login`, while
`authenticate("admin", "wrong")` returns none and changes nothing. -/
theorem authenticate_spec (rows : List UserRow)
    (username password : String) (now : Nat) :
    (∀ r, rows.find? (fun u => u.username == username) = some r →
      ((r.password_hash = password ∧ r.is_active = true →
        UserRepository.authenticate username password now rows =
          (some (rowToUser r),
           UserRepository.update_last_login r.id now rows)) ∧
       (¬ (r.password_hash = password ∧ r.is_active = true) →
        UserRepository.authenticate username password now rows =
          (none, rows)))) ∧
    (rows.find? (fun u => u.username == username) = none →
      UserRepository.authenticate username password now rows =
        (none, rows)) ∧
    (UserRepository.authenticate "admin" "admin123" now freshUsers =
      (some ⟨some 1, "admin", "admin123", "admin", true, none⟩,
       [⟨1, "admin", "admin123", "admin", true, some now⟩]) ∧
     (rowToUser ⟨1, "admin", "admin123", "admin", true, none⟩).role =
       "admin") ∧
    UserRepository.authenticate "admin" "wrong" now freshUsers =
      (none, freshUsers) := by
  refine ⟨?_, ?_, ⟨?_, rfl⟩, ?_⟩
  · intro r hfind
    constructor
    · intro hok
      simp [UserRepository.authenticate, UserRepository.get_by_username,
        hfind, rowToUser, hok.1, hok.2]
    · intro hbad
      cases hcond : (r.password_hash == password && r.is_active) with
      | true =>
        exact absurd (by simpa using hcond) hbad
      | false =>
        simp only [UserRepository.authenticate,
          UserRepository.get_by_username, hfind, rowToUser]
        rw [hcond]
        simp
  · intro hnone
    simp [UserRepository.authenticate, UserRepository.get_by_username, hnone]
  · simp [UserRepository.authenticate, UserRepository.get_by_username,
      freshUsers, rowToUser, UserRepository.update_last_login]
  · simp [UserRepository.authenticate, UserRepository.get_by_username,
      freshUsers, rowToUser]

/-- Witness for C6: the two scenario runs at a concrete timestamp. -/
theorem authenticate_spec_witness :
    UserRepository.authenticate "admin" "admin123" 99 freshUsers =
      (some ⟨some 1, "admin", "admin123", "admin", true, none⟩,
       [⟨1, "admin", "admin123", "admin", true, some 99⟩]) ∧
    UserRepository.authenticate "admin" "wrong" 99 freshUsers =
      (none, freshUsers) :=
  ⟨(authenticate_spec freshUsers "admin" "admin123" 99).2.2.1.1,
   (authenticate_spec freshUsers "admin" "wrong" 99).2.2.2⟩

/-! ### Claim C7 -/

/-- C7: whenever `count` does not exceed the number of stored rows
matching the filters, `get_random_questions` returns exactly `count`
questions — never more — all converted from stored rows, with no
duplicate row id within one call (row ids are the table's PRIMARY
KEY). -/
theorem get_random_questions_spec (rows shuffled : List QuestionRow)
    (category difficulty : Option String) (count : Nat)
    (hperm : List.Perm shuffled
      (rows.filter (rowMatchesFilters category difficulty)))
    (hcount : count ≤
      (rows.filter (rowMatchesFilters category difficulty)).length)
    (hids : (rows.map QuestionRow.id).Nodup) :
    (get_random_questions count shuffled).length = count ∧
    (get_random_questions count shuffled).length ≤ count ∧
    (∀ q ∈ get_random_questions count shuffled,
      ∃ r ∈ rows, q = rowToQuestion r) ∧
    ((get_random_questions count shuffled).map Question.id).Nodup := by
  have hlen : (get_random_questions count shuffled).length = count := by
    simp only [get_random_questions, List.length_map, List.length_take]
    rw [hperm.length_eq]
    exact Nat.min_eq_left hcount
  refine ⟨hlen, le_of_eq hlen, ?_, ?_⟩
  · intro q hq
    simp only [get_random_questions, List.mem_map] at hq
    obtain ⟨r, hr, rfl⟩ := hq
    have hr1 : r ∈ shuffled := List.take_subset count shuffled hr
    have hr2 : r ∈ rows.filter (rowMatchesFilters category difficulty) :=
      hperm.mem_iff.mp hr1
    exact ⟨r, List.mem_of_mem_filter hr2, rfl⟩
  · have hfid : ((rows.filter
        (rowMatchesFilters category difficulty)).map QuestionRow.id).Nodup :=
      List.Nodup.sublist
        (List.Sublist.map QuestionRow.id (List.filter_sublist rows)) hids
    have hsid : (shuffled.map QuestionRow.id).Nodup :=
      ((hperm.map QuestionRow.id).nodup_iff).mpr hfid
    have htid : ((shuffled.take count).map QuestionRow.id).Nodup := by
      rw [List.map_take]
      exact List.Nodup.sublist (List.take_sublist count _) hsid
    have hcomp : (get_random_questions count shuffled).map Question.id =
        ((shuffled.take count).map QuestionRow.id).map some := by
      simp only [get_random_questions, List.map_map]
      rfl
    rw [hcomp]
    exact htid.map (Option.some_injective _)

/-- Witness for C7: three stored rows, a two-element draw from the
reversed shuffle. -/
theorem get_random_questions_spec_witness :
    (get_random_questions 2
      [⟨3, "p3", "a", "b", "c", "A", "General", "Easy", ""⟩,
       ⟨2, "p2", "a", "b", "c", "B", "General", "Easy", ""⟩,
       ⟨1, "p1", "a", "b", "c", "C", "General", "Easy", ""⟩]).length = 2 ∧
    ((get_random_questions 2
      [⟨3, "p3", "a", "b", "c", "A", "General", "Easy", ""⟩,
       ⟨2, "p2", "a", "b", "c", "B", "General", "Easy", ""⟩,
       ⟨1, "p1", "a", "b", "c", "C", "General", "Easy", ""⟩]).map
        Question.id).Nodup := by
  have h := get_random_questions_spec
    [⟨1, "p1", "a", "b", "c", "C", "General", "Easy", ""⟩,
     ⟨2, "p2", "a", "b", "c", "B", "General", "Easy", ""⟩,
     ⟨3, "p3", "a", "b", "c", "A", "General", "Easy", ""⟩]
    [⟨3, "p3", "a", "b", "c", "A", "General", "Easy", ""⟩,
     ⟨2, "p2", "a", "b", "c", "B", "General", "Easy", ""⟩,
     ⟨1, "p1", "a", "b", "c", "C", "General", "Easy", ""⟩]
    none none 2 (by decide) (by decide) (by decide)
  exact ⟨h.1, h.2.2.2⟩

/-! ### Claim C9 -/

theorem calculate_score_blank :
    ∀ questions : List Question, (∀ q ∈ questions, q.answer ≠ "") →
      calculate_score questions (List.replicate questions.length "") =
        (0, List.replicate questions.length false)
  | [], _ => rfl
  | q :: qs, h => by
    have hq : ¬ ("" = q.answer) := fun he => h q (by simp) he.symm
    have ih := calculate_score_blank qs (fun x hx => h x (by simp [hx]))
    simp [List.replicate_succ, calculate_score, hq, ih]

/-- C9: for a session with a 5-second budget and auto-submit on, with
no user interaction: during the first invocation and the following
one-second ticks the session stays incomplete and nothing is persisted
while the countdown is positive; at the tick that finds the countdown
at zero — the 5th one-second tick after the immediate first invocation
— the session transitions to completed and exactly one result is
persisted, holding the all-blank recorded answers and score 0. -/
theorem auto_submit_after_countdown (questions : List Question)
    (hans : ∀ q ∈ questions, q.answer ≠ "") :
    (∀ n, n ≤ 5 →
      ((update_timer questions)^[n] (initialSession 5)).quiz_completed =
        false ∧
      ((update_timer questions)^[n] (initialSession 5)).persisted = []) ∧
    ((update_timer questions)^[6] (initialSession 5)).quiz_completed =
      true ∧
    ((update_timer questions)^[6] (initialSession 5)).user_answers =
      List.replicate questions.length "" ∧
    ((update_timer questions)^[6] (initialSession 5)).persisted =
      [⟨0, questions.length⟩] := by
  have istep : ∀ (k : Nat) (s1 s2 : QuizSession),
      (update_timer questions)^[k] (initialSession 5) = s1 →
      update_timer questions s1 = s2 →
      (update_timer questions)^[k + 1] (initialSession 5) = s2 := by
    intro k s1 s2 h1 h2
    rw [Function.iterate_succ_apply', h1, h2]
  have i0 : (update_timer questions)^[0] (initialSession 5) =
      ⟨5, false, [], []⟩ := rfl
  have i1 : (update_timer questions)^[1] (initialSession 5) =
      ⟨4, false, [], []⟩ :=
    istep 0 _ _ i0 (by norm_num [update_timer])
  have i2 : (update_timer questions)^[2] (initialSession 5) =
      ⟨3, false, [], []⟩ :=
    istep 1 _ _ i1 (by norm_num [update_timer])
  have i3 : (update_timer questions)^[3] (initialSession 5) =
      ⟨2, false, [], []⟩ :=
    istep 2 _ _ i2 (by norm_num [update_timer])
  have i4 : (update_timer questions)^[4] (initialSession 5) =
      ⟨1, false, [], []⟩ :=
    istep 3 _ _ i3 (by norm_num [update_timer])
  have i5 : (update_timer questions)^[5] (initialSession 5) =
      ⟨0, false, [], []⟩ :=
    istep 4 _ _ i4 (by norm_num [update_timer])
  have i6 : (update_timer questions)^[6] (initialSession 5) =
      ⟨0, true, List.replicate questions.length "",
       [⟨0, questions.length⟩]⟩ :=
    istep 5 _ _ i5
      (by simp [update_timer, finish_quiz,
        calculate_score_blank questions hans])
  refine ⟨?_, by rw [i6], by rw [i6], by rw [i6]⟩
  intro n hn
  interval_cases n
  · exact ⟨by rw [i0], by rw [i0]⟩
  · exact ⟨by rw [i1], by rw [i1]⟩
  · exact ⟨by rw [i2], by rw [i2]⟩
  · exact ⟨by rw [i3], by rw [i3]⟩
  · exact ⟨by rw [i4], by rw [i4]⟩
  · exact ⟨by rw [i5], by rw [i5]⟩

/-- Witness for C9 on the concrete three-question session. -/
theorem auto_submit_after_countdown_witness :
    ((update_timer scenarioQuestions)^[6] (initialSession 5)).quiz_completed =
      true ∧
    ((update_timer scenarioQuestions)^[6] (initialSession 5)).persisted =
      [⟨0, 3⟩] := by
  have h := auto_submit_after_countdown scenarioQuestions (by decide)
  exact ⟨h.2.1, by simpa using h.2.2.2⟩

end QuizApp
